import Mathlib

/-!
Verification of the alignment engine of the `la` labeled-array library
(`la/flarry.py`): the `align` orchestrator and the label set algebra
(`union`, `intersection`).

The embedding follows the Python source closely.  Labels are values of an
arbitrary linearly ordered type `α` (Python requires hashable, mutually
comparable labels).  A dense buffer is modelled as a total function from
multi-indices (`List Nat`) to element values, together with its dtype, its
shape and an allocation tag `id` that records which memory block the buffer
lives in (numpy's `take`, `astype` and `copy` return freshly allocated
blocks; in-place assignment keeps the block).  Helper functions that live in
modules of the repository that are not part of the provided source
(`la.flabel.listmap`, `la.flabel.listmap_fill`, `la.missing.missing_marker`,
`larry.astype`) are modelled from the specification and marked as such.
-/

namespace La

/-- Element dtypes distinguished by the library: only `float`, `str` and
`obj` have a missing-value marker; `int` and `bool` do not. -/
inductive Dtype
  | float
  | int
  | bool
  | str
  | obj
deriving DecidableEq

/-- Element values: ordinary numbers, the floating NaN marker, strings,
Python `None` and Python `NotImplemented` (the sentinel returned by the
missing-marker lookup when the dtype has no marker). -/
inductive Val
  | num (n : Int)
  | nan
  | str (s : String)
  | null
  | notImpl
deriving DecidableEq

/-- Allocation tag of a buffer.  `root n` is a pre-existing source block;
`fresh side tag parent` is a block newly allocated (by `take`, `astype` or
`copy`) from `parent` while processing the array on the given `side`
(1 = first input, 2 = second input, 0 = pre-loop cast). -/
inductive BufId
  | root (n : Nat)
  | fresh (side : Nat) (tag : Nat) (parent : BufId)
deriving DecidableEq

/-- Python exceptions raised by the functions under verification. -/
inductive PyErr
  | valueError (msg : String)
  | typeError (msg : String)
  | attrError
  | indexError
deriving DecidableEq

/-- Whether an exception is a `TypeError`. -/
def PyErr.isTypeError : PyErr → Bool
  | .typeError _ => true
  | _ => false

/-- Whether an `Except` computation succeeded. -/
def isOk {ε σ : Type} : Except ε σ → Bool
  | .ok _ => true
  | .error _ => false

/-- A dense numpy buffer: dtype, shape, contents (total on multi-indices)
and the allocation tag of the underlying memory block. -/
structure Arr where
  dtype : Dtype
  shape : List Nat
  data : List Nat → Val
  id : BufId

/-- Modelled from the spec: whether a value can be represented in
(assigned into) a buffer of the given element type; `fillMissing` fails
with a type error otherwise (spec section 4.4). -/
def canHold : Dtype → Val → Bool
  | .float, .num _ => true
  | .float, .nan => true
  | .int, .num _ => true
  | .bool, .num _ => true
  | .str, .str _ => true
  | .obj, _ => true
  | _, _ => false

/-- Gather, `numpy.take`, along one axis: entry `j` along `ax` of the result reads
entry `idx[j]` of the source; the result is a freshly allocated block
(the `side` argument only feeds the allocation tag). -/
def Arr.take (a : Arr) (idx : List Nat) (ax : Nat) (side : Nat) : Arr :=
  { dtype := a.dtype
    shape := a.shape.set ax idx.length
    data := fun i => a.data (i.set ax (idx.getD (i.getD ax 0) 0))
    id := BufId.fresh side ax a.id }

/-- In-place assignment `x[(slice,) * ax + (pos,)] = m`: writes `m` at every
position along `ax` listed in `pos`, in the same memory block; raises
`TypeError` when `m` cannot be represented in the buffer's dtype. -/
def Arr.fillAt (a : Arr) (ax : Nat) (pos : List Nat) (m : Val) : Except PyErr Arr :=
  if canHold a.dtype m then
    .ok { a with data := fun i => if i.getD ax 0 ∈ pos then m else a.data i }
  else
    .error (.typeError "`fill` type not compatible with larry dtype")

/-- Duplication, `numpy.ndarray.copy`: same contents, freshly allocated block. -/
def Arr.copy (a : Arr) (side : Nat) : Arr :=
  { a with id := BufId.fresh side 0 a.id }

/-- A larry: a dense buffer plus one label list per axis.  The class
invariant of the library equates the number of label lists with the
buffer's rank. -/
structure Larry (α : Type) where
  x : Arr
  label : List (List α)

/-- Number of dimensions; by the larry invariant this equals the buffer
rank, so it is read off the label lists. -/
def Larry.ndim {α : Type} (l : Larry α) : Nat :=
  l.label.length

/-- Modelled from the spec: `larry.astype` (defined in `la.deflarry`,
not under the provided source) widens the element type; the numeric
contents are preserved and a fresh buffer is allocated. -/
def Larry.astype {α : Type} (l : Larry α) (d : Dtype) : Larry α :=
  ⟨{ l.x with dtype := d, id := BufId.fresh 0 0 l.x.id }, l.label⟩

/-- Modelled from the spec: `la.missing.missing_marker` (not under the
provided source) returns the missing-value sentinel for the array's
element type — NaN for float, the empty string for str, None for object —
and `NotImplemented` when the dtype (int, bool) has no marker. -/
def missing_marker {α : Type} (lar : Larry α) : Val :=
  match lar.x.dtype with
  | Dtype.float => Val.nan
  | Dtype.str => Val.str ""
  | Dtype.obj => Val.null
  | Dtype.int => Val.notImpl
  | Dtype.bool => Val.notImpl

section LabelAlgebra

variable {α : Type} [LinearOrder α]

/-- Position of the first occurrence of `b` in the list (Python
`list.index`); returns the length when absent. -/
def idxOf [DecidableEq α] : List α → α → Nat
  | [], _ => 0
  | x :: xs, b => if x = b then 0 else idxOf xs b + 1

/-- Canonical listing, `list(someSet)` followed by `.sort()`: the sorted list of the distinct
elements of `l`. -/
def sortedSet (l : List α) : List α :=
  List.insertionSort (fun a b => a ≤ b) l.dedup

/-- Sorted set intersection, `sorted(set(l1) & set(l2))`. -/
def interList (l1 l2 : List α) : List α :=
  sortedSet (l1.filter (fun a => decide (a ∈ l2)))

/-- Sorted set union, `sorted(set(l1) | set(l2))`. -/
def unionList (l1 l2 : List α) : List α :=
  sortedSet (l1 ++ l2)

/-- Modelled from the spec: `la.flabel.listmap` (not under the provided
source) — `mapPositions(sourceLabels, targetLabels)`: for each target
label, the position supplying it in the source label list. -/
def listmap (src tgt : List α) : List Nat :=
  tgt.map (fun t => idxOf src t)

/-- Modelled from the spec: `la.flabel.listmap_fill` (not under the
provided source) — `mapPositionsWithFill(sourceLabels, targetLabels,
placeholder)`: gather indices with `fillIdx` substituted where the target
label is absent from the source, together with the list of target
positions that have no counterpart in the source. -/
def listmap_fill (src tgt : List α) (fillIdx : Nat) : List Nat × List Nat :=
  (tgt.map (fun t => if t ∈ src then idxOf src t else fillIdx),
   (List.range tgt.length).filter (fun i =>
      match tgt.get? i with
      | some t => decide (¬ t ∈ src)
      | none => false))

end LabelAlgebra

/-- The `join` argument of `align`: a single mode string broadcast to all
axes, or one mode string per axis. -/
inductive JoinArg
  | single (j : String)
  | perAxis (js : List String)

section Align

variable {α : Type} [LinearOrder α]

/-- Normalization of the `join` argument to one mode per axis
(`flarry.py` lines 97-106); a list of the wrong length is a
`ValueError`. -/
def joinNorm (join : JoinArg) (ndim : Nat) : Except PyErr (List String) :=
  match join with
  | JoinArg.single j => .ok (List.replicate ndim j)
  | JoinArg.perAxis js =>
      if js.length ≠ ndim then
        .error (.valueError "Length of `join` list equal number of dimension of `lar1`.")
      else
        .ok js

/-- Missing-marker resolution for one input under the default fill policy
(`flarry.py` lines 110-117): look the marker up; when it does not exist
(`NotImplemented`) and casting is permitted, widen the array to float and
look again. -/
def resolveOne (lar : Larry α) (cast : Bool) : Larry α × Val :=
  if missing_marker lar = Val.notImpl ∧ cast = true then
    (lar.astype Dtype.float, missing_marker (lar.astype Dtype.float))
  else (lar, missing_marker lar)

/-- The missing-marker resolution of `align` under the default fill policy
(`flarry.py` lines 109-117), for both inputs.  Returns the (possibly
cast) arrays and both markers. -/
def resolveDefault (lar1 lar2 : Larry α) (cast : Bool) :
    Larry α × Larry α × Val × Val :=
  ((resolveOne lar1 cast).1, (resolveOne lar2 cast).1,
   (resolveOne lar1 cast).2, (resolveOne lar2 cast).2)

/-- Missing-marker resolution of `align` (`flarry.py` lines 108-120): the
default-policy resolution when `fill` is the string `'default'`, otherwise
the explicit fill value is used verbatim for both inputs. -/
def resolveFill (lar1 lar2 : Larry α) (fill : Val) (cast : Bool) :
    Larry α × Larry α × Val × Val :=
  if fill = Val.str "default" then resolveDefault lar1 lar2 cast
  else (lar1, lar2, fill, fill)

/-- One iteration of the axis loop of `align` (`flarry.py` lines 132-198):
given the join mode and the two input label lists for axis `ax` and the
current working buffers and view flags, produce the output label list for
this axis and the updated buffers and flags. -/
def axisStep (ax : Nat) (m1 m2 : Val) (joinax : String) (list1 list2 : List α)
    (x1 x2 : Arr) (v1 v2 : Bool) :
    Except PyErr (List α × Arr × Arr × Bool × Bool) :=
  if joinax = "inner" then
    if list1 = list2 then .ok (list1, x1, x2, v1, v2)
    else
      let list3 := interList list1 list2
      let idx1 := listmap list1 list3
      let idx2 := listmap list2 list3
      .ok (list3, x1.take idx1 ax 1, x2.take idx2 ax 2, false, false)
  else if joinax = "outer" then
    if list1 = list2 then .ok (list1, x1, x2, v1, v2)
    else
      let list3 := unionList list1 list2
      let pr1 := listmap_fill list1 list3 0
      let pr2 := listmap_fill list2 list3 0
      let x1t := x1.take pr1.1 ax 1
      let x2t := x2.take pr2.1 ax 2
      match x1t.fillAt ax pr1.2 m1 with
      | .error e => .error e
      | .ok x1f =>
        match x2t.fillAt ax pr2.2 m2 with
        | .error e => .error e
        | .ok x2f => .ok (list3, x1f, x2f, false, false)
  else if joinax = "left" then
    if list1 = list2 then .ok (list1, x1, x2, v1, v2)
    else
      let pr2 := listmap_fill list2 list1 0
      match (x2.take pr2.1 ax 2).fillAt ax pr2.2 m2 with
      | .error e => .error e
      | .ok x2f => .ok (list1, x1, x2f, v1, false)
  else if joinax = "right" then
    if list1 = list2 then .ok (list2, x1, x2, v1, v2)
    else
      let pr1 := listmap_fill list1 list2 0
      match (x1.take pr1.1 ax 1).fillAt ax pr1.2 m1 with
      | .error e => .error e
      | .ok x1f => .ok (list2, x1f, x2, false, v2)
  else
    .error (.valueError "join type not recognized")

/-- The axis loop of `align`: fold `axisStep` over the per-axis triples
(join mode, label list of `lar1`, label list of `lar2`), threading the
working buffers and view flags and accumulating the output label lists. -/
def alignLoop (m1 m2 : Val) :
    List (String × List α × List α) → Nat → Arr → Arr → Bool → Bool →
    Except PyErr (List (List α) × Arr × Arr × Bool × Bool)
  | [], _, x1, x2, v1, v2 => .ok ([], x1, x2, v1, v2)
  | (j, l1, l2) :: rest, ax, x1, x2, v1, v2 =>
    match axisStep ax m1 m2 j l1 l2 x1 x2 v1 v2 with
    | .error e => .error e
    | .ok (l3, x1a, x2a, v1a, v2a) =>
      match alignLoop m1 m2 rest (ax + 1) x1a x2a v1a v2a with
      | .error e => .error e
      | .ok (labs, x1b, x2b, v1b, v2b) => .ok (l3 :: labs, x1b, x2b, v1b, v2b)

/-- Zip three lists into a list of triples (truncating at the shortest). -/
def zip3 {a b c : Type} : List a → List b → List c → List (a × b × c)
  | x :: xs, y :: ys, z :: zs => (x, y, z) :: zip3 xs ys zs
  | _, _, _ => []

/-- Alignment orchestrator `la.align` (`flarry.py` lines 13-209): check ranks, normalize the join
specification, resolve the missing markers, run the axis loop, and build
the two output larrys, copying any buffer that is still a view of its
source. -/
def align (lar1 lar2 : Larry α) (join : JoinArg) (fill : Val) (cast : Bool) :
    Except PyErr (Larry α × Larry α) :=
  if lar1.ndim ≠ lar2.ndim then
    .error (.valueError "'lar1' and 'lar2' must have the same number of dimensions.")
  else
    match joinNorm join lar2.ndim with
    | .error e => .error e
    | .ok joinList =>
      match alignLoop (resolveFill lar1 lar2 fill cast).2.2.1
              (resolveFill lar1 lar2 fill cast).2.2.2
              (zip3 joinList (resolveFill lar1 lar2 fill cast).1.label
                (resolveFill lar1 lar2 fill cast).2.1.label) 0
              (resolveFill lar1 lar2 fill cast).1.x
              (resolveFill lar1 lar2 fill cast).2.1.x true true with
      | .error e => .error e
      | .ok (labs, x1, x2, v1, v2) =>
        .ok (⟨if v1 = true then x1.copy 1 else x1, labs⟩,
             ⟨if v2 = true then x2.copy 2 else x2, labs⟩)

/-- Variant of `align` under the default fill policy, written with the marker
resolution inlined unconditionally (no fill parameter exists at all); used
to state that passing the literal string `'default'` as `fill` requests
exactly this behaviour. -/
def alignDefaultPolicy (lar1 lar2 : Larry α) (join : JoinArg) (cast : Bool) :
    Except PyErr (Larry α × Larry α) :=
  if lar1.ndim ≠ lar2.ndim then
    .error (.valueError "'lar1' and 'lar2' must have the same number of dimensions.")
  else
    match joinNorm join lar2.ndim with
    | .error e => .error e
    | .ok joinList =>
      match alignLoop (resolveDefault lar1 lar2 cast).2.2.1
              (resolveDefault lar1 lar2 cast).2.2.2
              (zip3 joinList (resolveDefault lar1 lar2 cast).1.label
                (resolveDefault lar1 lar2 cast).2.1.label) 0
              (resolveDefault lar1 lar2 cast).1.x
              (resolveDefault lar1 lar2 cast).2.1.x true true with
      | .error e => .error e
      | .ok (labs, x1, x2, v1, v2) =>
        .ok (⟨if v1 = true then x1.copy 1 else x1, labs⟩,
             ⟨if v2 = true then x2.copy 2 else x2, labs⟩)

end Align

/-- An argument passed to `union`/`intersection`: a larry, or some other
Python object (one that does not expose a `label` attribute). -/
inductive Arg (α : Type)
  | lar (l : Larry α)
  | notLarry

section SetAlgebra

variable {α : Type} [LinearOrder α]

/-- The accumulation loop of `la.union` (`flarry.py` lines 242-247):
each argument is type-checked before its labels on the requested axis are
united into the running set; label access at a bad axis is an
`IndexError`. -/
def unionAcc (axis : Nat) : List (Arg α) → List α → Except PyErr (List α)
  | [], rc => .ok rc
  | Arg.lar l :: rest, rc =>
    match l.label.get? axis with
    | some lab => unionAcc axis rest (lab ++ rc)
    | none => .error .indexError
  | Arg.notLarry :: _, _ => .error (.typeError "One or more input is not a larry")

/-- Label set union `la.union` (`flarry.py` lines 211-250): sorted set union of the label
lists of the arguments on one axis. -/
def union (axis : Nat) (args : List (Arg α)) : Except PyErr (List α) :=
  (unionAcc axis args []).map sortedSet

/-- The accumulation loop of `la.intersection` over the arguments after
the first (`flarry.py` lines 284-289). -/
def interAcc (axis : Nat) : List (Arg α) → List α → Except PyErr (List α)
  | [], rc => .ok rc
  | Arg.lar l :: rest, rc =>
    match l.label.get? axis with
    | some lab => interAcc axis rest (rc.filter (fun a => decide (a ∈ lab)))
    | none => .error .indexError
  | Arg.notLarry :: _, _ => .error (.typeError "One or more input is not a larry")

/-- Label set intersection `la.intersection` (`flarry.py` lines 252-292): sorted set intersection
of the label lists of the arguments on one axis.  The first argument is
used as the initial accumulator via `args[0].label[axis]` with no larry
type check: an empty argument list is an `IndexError` and a first argument
without a `label` attribute is an `AttributeError`. -/
def intersection (axis : Nat) (args : List (Arg α)) : Except PyErr (List α) :=
  match args with
  | [] => .error .indexError
  | Arg.notLarry :: _ => .error .attrError
  | Arg.lar l0 :: rest =>
    match l0.label.get? axis with
    | none => .error .indexError
    | some lab0 => (interAcc axis rest lab0).map sortedSet

end SetAlgebra

section DerivedDefs

variable {α : Type} [LinearOrder α]

/-- The output label list that the axis loop produces for one axis, as a
function of the join mode and the two input label lists (the buffers play
no part in it); proven below to agree with `axisStep`. -/
def labelOf (j : String) (l1 l2 : List α) : List α :=
  if j = "inner" then (if l1 = l2 then l1 else interList l1 l2)
  else if j = "outer" then (if l1 = l2 then l1 else unionList l1 l2)
  else if j = "left" then l1
  else if j = "right" then l2
  else []

/-- Every entry of the buffer whose coordinate along axis `a` lies in
`pos` equals `m`. -/
abbrev FilledAt (x : Arr) (a : Nat) (pos : List Nat) (m : Val) : Prop :=
  ∀ idx : List Nat, idx.getD a 0 ∈ pos → x.data idx = m

/-- The buffer's memory block was freshly allocated while processing the
array on the given side. -/
abbrev IdSide (s : Nat) (b : BufId) : Prop :=
  ∃ t p, b = BufId.fresh s t p

/-- A join mode the axis loop recognizes. -/
def recognizedJoin (j : String) : Prop :=
  j = "inner" ∨ j = "outer" ∨ j = "left" ∨ j = "right"

end DerivedDefs

/-- Concrete 1-d float larry with labels `[0, 1]` (think `['a','b']`). -/
def wLar1 : Larry Nat :=
  ⟨⟨Dtype.float, [2], fun i => Val.num (Int.ofNat (i.getD 0 0)), BufId.root 0⟩, [[0, 1]]⟩

/-- Concrete 1-d float larry with labels `[1, 2]` (think `['b','dd']`). -/
def wLar2 : Larry Nat :=
  ⟨⟨Dtype.float, [2], fun i => Val.num (Int.ofNat (10 + i.getD 0 0)), BufId.root 1⟩, [[1, 2]]⟩

/-- Concrete 1-d float larry whose label list `[1, 0]` is not sorted. -/
def cexLar : Larry Nat :=
  ⟨⟨Dtype.float, [2], fun i => Val.num (Int.ofNat (i.getD 0 0)), BufId.root 0⟩, [[1, 0]]⟩

/-- Concrete 1-d int larry (int has no missing marker), labels `[0, 1]`. -/
def intLar : Larry Nat :=
  ⟨⟨Dtype.int, [2], fun _ => Val.num 5, BufId.root 0⟩, [[0, 1]]⟩

/-- Concrete 1-d int larry, labels `[1, 2]`. -/
def intLar2 : Larry Nat :=
  ⟨⟨Dtype.int, [2], fun _ => Val.num 7, BufId.root 1⟩, [[1, 2]]⟩

/-! ## Supporting lemmas -/

section Lemmas

variable {α : Type} [LinearOrder α]

/-- Membership: `sortedSet` keeps exactly the elements of its input. -/
theorem mem_sortedSet {l : List α} {a : α} : a ∈ sortedSet l ↔ a ∈ l := by
  unfold sortedSet
  rw [List.mem_insertionSort, List.mem_dedup]

/-- Ordering: `sortedSet` output is sorted. -/
theorem sortedSet_sorted (l : List α) :
    (sortedSet l).Sorted (fun a b => a ≤ b) := by
  unfold sortedSet
  exact List.sorted_insertionSort _ _

/-- Membership in the sorted union. -/
theorem mem_unionList {l1 l2 : List α} {a : α} :
    a ∈ unionList l1 l2 ↔ a ∈ l1 ∨ a ∈ l2 := by
  unfold unionList
  rw [mem_sortedSet, List.mem_append]

/-- Membership in the sorted intersection. -/
theorem mem_interList {l1 l2 : List α} {a : α} :
    a ∈ interList l1 l2 ↔ a ∈ l1 ∧ a ∈ l2 := by
  unfold interList
  rw [mem_sortedSet, List.mem_filter]
  simp

/-- Resolution (`resolveOne`) never changes the label lists. -/
theorem resolveOne_label (lar : Larry α) (cast : Bool) :
    (resolveOne lar cast).1.label = lar.label := by
  unfold resolveOne Larry.astype
  split_ifs <;> rfl

/-- Resolution (`resolveOne`) never changes the buffer contents. -/
theorem resolveOne_data (lar : Larry α) (cast : Bool) :
    (resolveOne lar cast).1.x.data = lar.x.data := by
  unfold resolveOne Larry.astype
  split_ifs <;> rfl

/-- Resolution (`resolveFill`) never changes the label lists of the first input. -/
theorem resolveFill_fst_label (lar1 lar2 : Larry α) (fill : Val) (cast : Bool) :
    (resolveFill lar1 lar2 fill cast).1.label = lar1.label := by
  unfold resolveFill resolveDefault
  split_ifs
  · exact resolveOne_label lar1 cast
  · rfl

/-- Resolution (`resolveFill`) never changes the label lists of the second input. -/
theorem resolveFill_snd_label (lar1 lar2 : Larry α) (fill : Val) (cast : Bool) :
    (resolveFill lar1 lar2 fill cast).2.1.label = lar2.label := by
  unfold resolveFill resolveDefault
  split_ifs
  · exact resolveOne_label lar2 cast
  · rfl

/-- Resolution (`resolveFill`) never changes the contents of the first input's buffer. -/
theorem resolveFill_fst_data (lar1 lar2 : Larry α) (fill : Val) (cast : Bool) :
    (resolveFill lar1 lar2 fill cast).1.x.data = lar1.x.data := by
  unfold resolveFill resolveDefault
  split_ifs
  · exact resolveOne_data lar1 cast
  · rfl

/-- Resolution (`resolveFill`) never changes the contents of the second input's buffer. -/
theorem resolveFill_snd_data (lar1 lar2 : Larry α) (fill : Val) (cast : Bool) :
    (resolveFill lar1 lar2 fill cast).2.1.x.data = lar2.x.data := by
  unfold resolveFill resolveDefault
  split_ifs
  · exact resolveOne_data lar2 cast
  · rfl

/-- The label list a successful `axisStep` emits depends only on the join
mode and the two input label lists. -/
theorem axisStep_ok_label {ax : Nat} {m1 m2 : Val} {j : String}
    {l1 l2 : List α} {x1 x2 : Arr} {v1 v2 : Bool}
    {l3 : List α} {x1a x2a : Arr} {v1a v2a : Bool}
    (h : axisStep ax m1 m2 j l1 l2 x1 x2 v1 v2 = .ok (l3, x1a, x2a, v1a, v2a)) :
    l3 = labelOf j l1 l2 := by
  unfold axisStep at h
  unfold labelOf
  split_ifs at h ⊢ <;> (try dsimp only at h) <;> (repeat' split at h) <;>
    first
      | (simp only [Except.ok.injEq, Prod.mk.injEq] at h; exact h.1.symm)
      | simp at h

/-- The labels accumulated by a successful `alignLoop` run are pointwise
`labelOf` of its per-axis triples. -/
theorem alignLoop_ok_labels {m1 m2 : Val} :
    ∀ (ts : List (String × List α × List α)) (ax : Nat) (x1 x2 : Arr)
      (v1 v2 : Bool) {labs : List (List α)} {x1b x2b : Arr} {v1b v2b : Bool},
      alignLoop m1 m2 ts ax x1 x2 v1 v2 = .ok (labs, x1b, x2b, v1b, v2b) →
      labs = ts.map (fun t => labelOf t.1 t.2.1 t.2.2)
  | [], ax, x1, x2, v1, v2, labs, x1b, x2b, v1b, v2b, h => by
    unfold alignLoop at h
    simp only [Except.ok.injEq, Prod.mk.injEq] at h
    exact h.1.symm ▸ rfl
  | (j, l1, l2) :: rest, ax, x1, x2, v1, v2, labs, x1b, x2b, v1b, v2b, h => by
    unfold alignLoop at h
    split at h
    · simp at h
    · rename_i step l3 x1a x2a v1a v2a hstep
      split at h
      · simp at h
      · rename_i rec labs2 x1c x2c v1c v2c hrec
        simp only [Except.ok.injEq, Prod.mk.injEq] at h
        obtain ⟨hl, -⟩ := h
        subst hl
        have := alignLoop_ok_labels rest (ax + 1) x1a x2a v1a v2a hrec
        simp only [List.map_cons]
        rw [← this, axisStep_ok_label hstep]

/-- Evaluation of `zip3` at an index where all three lists are defined. -/
theorem zip3_get? {a b c : Type} :
    ∀ (xs : List a) (ys : List b) (zs : List c) (i : Nat) {x : a} {y : b} {z : c},
      xs.get? i = some x → ys.get? i = some y → zs.get? i = some z →
      (zip3 xs ys zs).get? i = some (x, y, z)
  | [], _, _, i, _, _, _, hx, _, _ => by simp at hx
  | _ :: _, [], _, i, _, _, _, _, hy, _ => by simp at hy
  | _ :: _, _ :: _, [], i, _, _, _, _, _, hz => by simp at hz
  | x0 :: xs, y0 :: ys, z0 :: zs, 0, x, y, z, hx, hy, hz => by
    simp only [List.get?] at hx hy hz
    cases hx; cases hy; cases hz
    rfl
  | x0 :: xs, y0 :: ys, z0 :: zs, i + 1, x, y, z, hx, hy, hz => by
    simp only [List.get?] at hx hy hz
    exact zip3_get? xs ys zs i hx hy hz

/-- Normalization (`joinNorm`) returns one mode per axis. -/
theorem joinNorm_length {join : JoinArg} {ndim : Nat} {js : List String}
    (h : joinNorm join ndim = .ok js) : js.length = ndim := by
  cases join with
  | single j =>
    simp only [joinNorm, Except.ok.injEq] at h
    rw [← h, List.length_replicate]
  | perAxis js0 =>
    simp only [joinNorm] at h
    split at h
    · simp at h
    · simp only [Except.ok.injEq] at h
      rename_i hlen
      rw [← h]
      exact not_ne_iff.mp hlen

/-- Inversion of a successful `align` call into its constituents. -/
theorem align_ok_inv {lar1 lar2 : Larry α} {join : JoinArg} {fill : Val}
    {cast : Bool} {lar3 lar4 : Larry α}
    (h : align lar1 lar2 join fill cast = .ok (lar3, lar4)) :
    ∃ (js : List String) (x1 x2 : Arr) (v1 v2 : Bool),
      lar1.ndim = lar2.ndim ∧
      joinNorm join lar2.ndim = .ok js ∧
      alignLoop (resolveFill lar1 lar2 fill cast).2.2.1
        (resolveFill lar1 lar2 fill cast).2.2.2
        (zip3 js lar1.label lar2.label) 0
        (resolveFill lar1 lar2 fill cast).1.x
        (resolveFill lar1 lar2 fill cast).2.1.x true true
        = .ok (lar3.label, x1, x2, v1, v2) ∧
      lar4.label = lar3.label ∧
      lar3.x = (if v1 = true then x1.copy 1 else x1) ∧
      lar4.x = (if v2 = true then x2.copy 2 else x2) := by
  unfold align at h
  split at h
  · simp at h
  · rename_i hnd
    split at h
    · simp at h
    · rename_i js hjs
      rw [resolveFill_fst_label lar1 lar2 fill cast,
          resolveFill_snd_label lar1 lar2 fill cast] at h
      split at h
      · simp at h
      · rename_i res labs x1 x2 v1 v2 hloop
        simp only [Except.ok.injEq, Prod.mk.injEq] at h
        obtain ⟨h3, h4⟩ := h
        refine ⟨js, x1, x2, v1, v2, not_ne_iff.mp hnd, hjs, ?_, ?_, ?_, ?_⟩
        · rw [← h3]
          exact hloop
        · rw [← h3, ← h4]
        · rw [← h3]
        · rw [← h4]

/-- The output label list at a given axis of a successful `align` call,
for both outputs. -/
theorem align_label_at {lar1 lar2 : Larry α} {join : JoinArg} {fill : Val}
    {cast : Bool} {lar3 lar4 : Larry α} {js : List String} {ax : Nat}
    {jm : String} {l1 l2 : List α}
    (h : align lar1 lar2 join fill cast = .ok (lar3, lar4))
    (hn : joinNorm join lar2.ndim = .ok js)
    (hj : js.get? ax = some jm)
    (h1 : lar1.label.get? ax = some l1)
    (h2 : lar2.label.get? ax = some l2) :
    lar3.label.get? ax = some (labelOf jm l1 l2) ∧
    lar4.label.get? ax = some (labelOf jm l1 l2) := by
  obtain ⟨js2, x1, x2, v1, v2, hnd, hn2, hloop, hl4, -, -⟩ := align_ok_inv h
  have hjs : js2 = js := by
    rw [hn] at hn2
    exact (Except.ok.inj hn2).symm
  have hj2 : js2.get? ax = some jm := by rw [hjs]; exact hj
  have hlabs := alignLoop_ok_labels _ _ _ _ _ _ hloop
  have hz := zip3_get? js2 lar1.label lar2.label ax hj2 h1 h2
  have h3 : lar3.label.get? ax = some (labelOf jm l1 l2) := by
    rw [hlabs, List.get?_map, hz]
    rfl
  exact ⟨h3, by rw [hl4]; exact h3⟩

/-- Forward reduction of `align` from its constituents. -/
theorem align_eq_of_ok {lar1 lar2 : Larry α} {join : JoinArg} {fill : Val}
    {cast : Bool} {js : List String} {labs : List (List α)} {x1 x2 : Arr}
    {v1 v2 : Bool}
    (hnd : lar1.ndim = lar2.ndim)
    (hn : joinNorm join lar2.ndim = .ok js)
    (hloop : alignLoop (resolveFill lar1 lar2 fill cast).2.2.1
        (resolveFill lar1 lar2 fill cast).2.2.2
        (zip3 js lar1.label lar2.label) 0
        (resolveFill lar1 lar2 fill cast).1.x
        (resolveFill lar1 lar2 fill cast).2.1.x true true
        = .ok (labs, x1, x2, v1, v2)) :
    align lar1 lar2 join fill cast
      = .ok (⟨if v1 = true then x1.copy 1 else x1, labs⟩,
             ⟨if v2 = true then x2.copy 2 else x2, labs⟩) := by
  unfold align
  rw [if_neg (by rw [hnd]; exact fun hc => hc rfl), hn]
  dsimp only
  rw [resolveFill_fst_label lar1 lar2 fill cast,
      resolveFill_snd_label lar1 lar2 fill cast, hloop]

/-- A recognized join mode aligning a label list with itself is the
identity fast path. -/
theorem axisStep_self {ax : Nat} {m1 m2 : Val} {j : String} {l : List α}
    {x1 x2 : Arr} {v1 v2 : Bool} (hj : recognizedJoin j) :
    axisStep ax m1 m2 j l l x1 x2 v1 v2 = .ok (l, x1, x2, v1, v2) := by
  rcases hj with hj | hj | hj | hj <;> subst hj <;> unfold axisStep <;> simp

/-- The axis loop on identical label lists under recognized join modes is
the identity: labels are returned unchanged, no buffer is touched and the
view flags survive. -/
theorem alignLoop_self {m1 m2 : Val} :
    ∀ (js : List String) (ls : List (List α)) (ax : Nat) (x1 x2 : Arr)
      (v1 v2 : Bool),
      js.length = ls.length →
      (∀ j ∈ js, recognizedJoin j) →
      alignLoop m1 m2 (zip3 js ls ls) ax x1 x2 v1 v2 = .ok (ls, x1, x2, v1, v2)
  | [], ls, ax, x1, x2, v1, v2, hlen, hrec => by
    cases ls with
    | nil => rfl
    | cons a as => simp at hlen
  | j :: js, ls, ax, x1, x2, v1, v2, hlen, hrec => by
    cases ls with
    | nil => simp at hlen
    | cons l ls2 =>
      have hj : recognizedJoin j := hrec j (List.mem_cons_self j js)
      have hrec2 : ∀ k ∈ js, recognizedJoin k :=
        fun k hk => hrec k (List.mem_cons_of_mem j hk)
      have hlen2 : js.length = ls2.length := by simpa using hlen
      show alignLoop m1 m2 ((j, l, l) :: zip3 js ls2 ls2) ax x1 x2 v1 v2 = _
      unfold alignLoop
      rw [axisStep_self hj]
      dsimp only
      rw [alignLoop_self js ls2 (ax + 1) x1 x2 v1 v2 hlen2 hrec2]

/-- Gathering (`take`) preserves the dtype. -/
theorem Arr.take_dtype (a : Arr) (idx : List Nat) (ax s : Nat) :
    (a.take idx ax s).dtype = a.dtype := rfl

/-- With `fill='default'` and casting disallowed, resolution returns both
inputs unchanged and their raw markers — even when a marker is
`NotImplemented`. -/
theorem resolveFill_default_nocast (lar1 lar2 : Larry α) :
    resolveFill lar1 lar2 (Val.str "default") false
      = (lar1, lar2, missing_marker lar1, missing_marker lar2) := by
  unfold resolveFill resolveDefault resolveOne
  rw [if_pos rfl, if_neg (fun hc => absurd hc.2 (by simp)),
      if_neg (fun hc => absurd hc.2 (by simp))]

/-- A dtype whose marker lookup fails cannot represent `NotImplemented`
either. -/
theorem missing_marker_no_canHold {lar : Larry α}
    (h : missing_marker lar = Val.notImpl) :
    canHold lar.x.dtype Val.notImpl = false := by
  unfold missing_marker at h
  cases hd : lar.x.dtype <;> rw [hd] at h <;> first | rfl | simp at h

/-- An all-`'outer'` axis loop with marker `NotImplemented` for the first
array, whose dtype cannot hold it, fails with the fill `TypeError` as soon
as some axis has differing label lists. -/
theorem alignLoop_outer_notImpl_fails {m2 : Val} :
    ∀ (ls1 ls2 : List (List α)) (ax : Nat) (x1 x2 : Arr) (v1 v2 : Bool)
      (k : Nat) (l1 l2 : List α),
      canHold x1.dtype Val.notImpl = false →
      ls1.get? k = some l1 → ls2.get? k = some l2 → l1 ≠ l2 →
      alignLoop Val.notImpl m2
          (zip3 (List.replicate ls1.length "outer") ls1 ls2) ax x1 x2 v1 v2
        = .error (.typeError "`fill` type not compatible with larry dtype")
  | [], ls2, ax, x1, x2, v1, v2, k, l1, l2, hch, h1, h2, hne => by simp at h1
  | a1 :: t1, [], ax, x1, x2, v1, v2, k, l1, l2, hch, h1, h2, hne => by simp at h2
  | a1 :: t1, a2 :: t2, ax, x1, x2, v1, v2, k, l1, l2, hch, h1, h2, hne => by
    show alignLoop Val.notImpl m2
        (("outer", a1, a2) :: zip3 (List.replicate t1.length "outer") t1 t2)
        ax x1 x2 v1 v2 = _
    by_cases heq : a1 = a2
    · subst heq
      cases k with
      | zero =>
        simp only [List.get?] at h1 h2
        cases h1; cases h2
        exact absurd rfl hne
      | succ k2 =>
        simp only [List.get?] at h1 h2
        unfold alignLoop
        rw [axisStep_self (Or.inr (Or.inl rfl))]
        dsimp only
        rw [alignLoop_outer_notImpl_fails t1 t2 (ax + 1) x1 x2 v1 v2 k2 l1 l2
              hch h1 h2 hne]
    · have hstep : axisStep ax Val.notImpl m2 "outer" a1 a2 x1 x2 v1 v2
          = .error (.typeError "`fill` type not compatible with larry dtype") := by
        unfold axisStep
        rw [if_neg (by simp), if_pos rfl, if_neg heq]
        dsimp only
        unfold Arr.fillAt
        rw [if_neg (by rw [Arr.take_dtype, hch]; simp)]
      unfold alignLoop
      rw [hstep]

/-- The union accumulation loop fails with the larry `TypeError` whenever a
non-larry occurs among the (axis-valid) arguments. -/
theorem unionAcc_notLarry (axis : Nat) :
    ∀ (args : List (Arg α)) (rc : List α),
      (∀ l : Larry α, Arg.lar l ∈ args → axis < l.label.length) →
      Arg.notLarry ∈ args →
      unionAcc axis args rc = .error (.typeError "One or more input is not a larry")
  | [], rc, hax, hmem => by simp at hmem
  | Arg.lar l :: rest, rc, hax, hmem => by
    have hl : axis < l.label.length := hax l (List.mem_cons_self _ _)
    obtain ⟨lab, hlab⟩ : ∃ lab, l.label.get? axis = some lab := by
      cases hg : l.label.get? axis with
      | none => exact absurd (List.get?_eq_none.mp hg) (Nat.not_le.mpr hl)
      | some lab => exact ⟨lab, rfl⟩
    have hmem2 : Arg.notLarry ∈ rest := by
      rcases List.mem_cons.mp hmem with hc | hc
      · exact Arg.noConfusion hc
      · exact hc
    have hax2 : ∀ l2 : Larry α, Arg.lar l2 ∈ rest → axis < l2.label.length :=
      fun l2 h2 => hax l2 (List.mem_cons_of_mem _ h2)
    unfold unionAcc
    rw [hlab]
    exact unionAcc_notLarry axis rest (lab ++ rc) hax2 hmem2
  | Arg.notLarry :: rest, rc, hax, hmem => rfl

/-- The intersection accumulation loop fails with the larry `TypeError`
whenever a non-larry occurs among the (axis-valid) arguments. -/
theorem interAcc_notLarry (axis : Nat) :
    ∀ (args : List (Arg α)) (rc : List α),
      (∀ l : Larry α, Arg.lar l ∈ args → axis < l.label.length) →
      Arg.notLarry ∈ args →
      interAcc axis args rc = .error (.typeError "One or more input is not a larry")
  | [], rc, hax, hmem => by simp at hmem
  | Arg.lar l :: rest, rc, hax, hmem => by
    have hl : axis < l.label.length := hax l (List.mem_cons_self _ _)
    obtain ⟨lab, hlab⟩ : ∃ lab, l.label.get? axis = some lab := by
      cases hg : l.label.get? axis with
      | none => exact absurd (List.get?_eq_none.mp hg) (Nat.not_le.mpr hl)
      | some lab => exact ⟨lab, rfl⟩
    have hmem2 : Arg.notLarry ∈ rest := by
      rcases List.mem_cons.mp hmem with hc | hc
      · exact Arg.noConfusion hc
      · exact hc
    have hax2 : ∀ l2 : Larry α, Arg.lar l2 ∈ rest → axis < l2.label.length :=
      fun l2 h2 => hax l2 (List.mem_cons_of_mem _ h2)
    unfold interAcc
    rw [hlab]
    exact interAcc_notLarry axis rest (rc.filter (fun a => decide (a ∈ lab))) hax2 hmem2
  | Arg.notLarry :: rest, rc, hax, hmem => rfl

/-- A successful in-place fill only changes the `data` field. -/
theorem Arr.fillAt_ok {a : Arr} {ax : Nat} {pos : List Nat} {m : Val} {b : Arr}
    (h : a.fillAt ax pos m = .ok b) :
    b = { a with data := fun i => if i.getD ax 0 ∈ pos then m else a.data i } := by
  unfold Arr.fillAt at h
  split at h
  · exact (Except.ok.inj h).symm
  · exact Except.noConfusion h

/-- Distinct sides give distinct freshly allocated blocks. -/
theorem idside_ne {s t : Nat} {b c : BufId} (hb : IdSide s b) (hc : IdSide t c)
    (hst : s ≠ t) : b ≠ c := by
  obtain ⟨u, p, rfl⟩ := hb
  obtain ⟨v, q, rfl⟩ := hc
  intro heq
  injection heq with h1 _ _
  exact hst h1

/-- A freshly allocated block is never a pre-existing root block. -/
theorem idside_ne_root {s n : Nat} {b : BufId} (hb : IdSide s b) :
    b ≠ BufId.root n := by
  obtain ⟨u, p, rfl⟩ := hb
  exact fun heq => BufId.noConfusion heq

/-- One axis step preserves the invariant "if the buffer is no longer a
view then its block was freshly allocated on its own side". -/
theorem axisStep_idside {ax : Nat} {m1 m2 : Val} {j : String}
    {l1 l2 : List α} {x1 x2 : Arr} {v1 v2 : Bool}
    {l3 : List α} {x1a x2a : Arr} {v1a v2a : Bool}
    (h : axisStep ax m1 m2 j l1 l2 x1 x2 v1 v2 = .ok (l3, x1a, x2a, v1a, v2a)) :
    ((v1 = false → IdSide 1 x1.id) → (v1a = false → IdSide 1 x1a.id)) ∧
    ((v2 = false → IdSide 2 x2.id) → (v2a = false → IdSide 2 x2a.id)) := by
  unfold axisStep at h
  split_ifs at h <;> (try dsimp only at h) <;> (repeat' split at h) <;>
    (try simp only [Except.ok.injEq, Prod.mk.injEq] at h) <;>
    first
      | (obtain ⟨-, h2e, h3e, h4e, h5e⟩ := h
         subst h2e; subst h3e; subst h4e; subst h5e
         refine ⟨fun hq hv => ?_, fun hq hv => ?_⟩ <;>
           first
             | exact hq hv
             | exact ⟨_, _, rfl⟩
             | exact ⟨_, _, (congrArg Arr.id (Arr.fillAt_ok (by assumption))).trans rfl⟩)
      | simp at h

/-- The axis loop preserves the view/allocation invariant on both sides. -/
theorem alignLoop_idside {m1 m2 : Val} :
    ∀ (ts : List (String × List α × List α)) (ax : Nat) (x1 x2 : Arr)
      (v1 v2 : Bool) {labs : List (List α)} {x1b x2b : Arr} {v1b v2b : Bool},
      alignLoop m1 m2 ts ax x1 x2 v1 v2 = .ok (labs, x1b, x2b, v1b, v2b) →
      ((v1 = false → IdSide 1 x1.id) → (v1b = false → IdSide 1 x1b.id)) ∧
      ((v2 = false → IdSide 2 x2.id) → (v2b = false → IdSide 2 x2b.id))
  | [], ax, x1, x2, v1, v2, labs, x1b, x2b, v1b, v2b, h => by
    unfold alignLoop at h
    simp only [Except.ok.injEq, Prod.mk.injEq] at h
    obtain ⟨-, h2e, h3e, h4e, h5e⟩ := h
    subst h2e; subst h3e; subst h4e; subst h5e
    exact ⟨fun hq => hq, fun hq => hq⟩
  | (j, l1, l2) :: rest, ax, x1, x2, v1, v2, labs, x1b, x2b, v1b, v2b, h => by
    unfold alignLoop at h
    split at h
    · simp at h
    · rename_i step l3 x1a x2a v1a v2a hstep
      split at h
      · simp at h
      · rename_i rec labs2 x1c x2c v1c v2c hrec
        simp only [Except.ok.injEq, Prod.mk.injEq] at h
        obtain ⟨-, h2e, h3e, h4e, h5e⟩ := h
        subst h2e; subst h3e; subst h4e; subst h5e
        obtain ⟨hs1, hs2⟩ := axisStep_idside hstep
        obtain ⟨hr1, hr2⟩ := alignLoop_idside rest (ax + 1) x1a x2a v1a v2a hrec
        exact ⟨fun hq => hr1 (hs1 hq), fun hq => hr2 (hs2 hq)⟩

/-- Updating a list at one position leaves `getD` at other positions
unchanged. -/
theorem getD_set_ne (l : List Nat) (n k v : Nat) (h : n ≠ k) :
    (l.set n v).getD k 0 = l.getD k 0 := by
  rw [List.getD_eq_getElem?_getD, List.getElem?_set_ne h,
      ← List.getD_eq_getElem?_getD]

/-- A gather along a different axis preserves a filled-slice invariant. -/
theorem FilledAt_take {x : Arr} {a : Nat} {pos : List Nat} {m : Val}
    (hf : FilledAt x a pos m) {idx : List Nat} {ax s : Nat} (hne : ax ≠ a) :
    FilledAt (x.take idx ax s) a pos m := by
  intro i hi
  show x.data (i.set ax (idx.getD (i.getD ax 0) 0)) = m
  apply hf
  rw [getD_set_ne _ _ _ _ hne]
  exact hi

/-- A later fill with the same marker preserves a filled-slice
invariant (whatever axis and positions it targets). -/
theorem FilledAt_fillAt_same {x y : Arr} {a ax : Nat} {pos pos2 : List Nat}
    {m : Val} (hf : FilledAt x a pos m) (h : x.fillAt ax pos2 m = .ok y) :
    FilledAt y a pos m := by
  intro i hi
  rw [Arr.fillAt_ok h]
  dsimp only
  split_ifs with hmem
  · rfl
  · exact hf i hi

/-- A successful fill establishes the filled-slice invariant on its own
positions. -/
theorem FilledAt_of_fillAt {x y : Arr} {ax : Nat} {pos : List Nat} {m : Val}
    (h : x.fillAt ax pos m = .ok y) : FilledAt y ax pos m := by
  intro i hi
  rw [Arr.fillAt_ok h]
  dsimp only
  rw [if_pos hi]

/-- One axis step at a different axis preserves filled-slice invariants
on both sides (fills always use the side's own marker). -/
theorem axisStep_preserves_filledAt {ax a : Nat} {m1 m2 : Val} {j : String}
    {l1 l2 : List α} {x1 x2 : Arr} {v1 v2 : Bool}
    {l3 : List α} {x1a x2a : Arr} {v1a v2a : Bool} {pos1 pos2 : List Nat}
    (h : axisStep ax m1 m2 j l1 l2 x1 x2 v1 v2 = .ok (l3, x1a, x2a, v1a, v2a))
    (hne : ax ≠ a) :
    (FilledAt x1 a pos1 m1 → FilledAt x1a a pos1 m1) ∧
    (FilledAt x2 a pos2 m2 → FilledAt x2a a pos2 m2) := by
  unfold axisStep at h
  split_ifs at h <;> (try dsimp only at h) <;> (repeat' split at h) <;>
    (try simp only [Except.ok.injEq, Prod.mk.injEq] at h) <;>
    first
      | (obtain ⟨-, h2e, h3e, h4e, h5e⟩ := h
         subst h2e; subst h3e; subst h4e; subst h5e
         constructor <;> intro hf <;>
           first
             | exact hf
             | exact FilledAt_take hf hne
             | exact FilledAt_fillAt_same (FilledAt_take hf hne) (by assumption))
      | simp at h

/-- The tail of the axis loop (working on strictly later axes) preserves
filled-slice invariants on both sides. -/
theorem alignLoop_preserves_filledAt {m1 m2 : Val} :
    ∀ (ts : List (String × List α × List α)) (ax0 : Nat) (x1 x2 : Arr)
      (v1 v2 : Bool) {labs : List (List α)} {x1b x2b : Arr} {v1b v2b : Bool}
      {a : Nat} {pos1 pos2 : List Nat},
      alignLoop m1 m2 ts ax0 x1 x2 v1 v2 = .ok (labs, x1b, x2b, v1b, v2b) →
      a < ax0 →
      (FilledAt x1 a pos1 m1 → FilledAt x1b a pos1 m1) ∧
      (FilledAt x2 a pos2 m2 → FilledAt x2b a pos2 m2)
  | [], ax0, x1, x2, v1, v2, labs, x1b, x2b, v1b, v2b, a, pos1, pos2, h, hlt => by
    unfold alignLoop at h
    simp only [Except.ok.injEq, Prod.mk.injEq] at h
    obtain ⟨-, h2e, h3e, -, -⟩ := h
    subst h2e; subst h3e
    exact ⟨fun hf => hf, fun hf => hf⟩
  | (j, g1, g2) :: rest, ax0, x1, x2, v1, v2, labs, x1b, x2b, v1b, v2b, a, pos1,
      pos2, h, hlt => by
    unfold alignLoop at h
    split at h
    · simp at h
    · rename_i step l3 x1a x2a v1a v2a hstep
      split at h
      · simp at h
      · rename_i rec labs2 x1c x2c v1c v2c hrec
        simp only [Except.ok.injEq, Prod.mk.injEq] at h
        obtain ⟨-, h2e, h3e, -, -⟩ := h
        subst h2e; subst h3e
        obtain ⟨hs1, hs2⟩ :=
          axisStep_preserves_filledAt hstep (Nat.ne_of_gt hlt)
        obtain ⟨hr1, hr2⟩ := alignLoop_preserves_filledAt rest (ax0 + 1)
          x1a x2a v1a v2a hrec (Nat.lt_succ_of_lt hlt)
        exact ⟨fun hf => hr1 (hs1 hf), fun hf => hr2 (hs2 hf)⟩

/-- An `'outer'` axis step on differing label lists leaves both buffers
filled with their markers at the positions their source lacks. -/
theorem axisStep_outer_filled {ax : Nat} {m1 m2 : Val} {l1 l2 : List α}
    {x1 x2 : Arr} {v1 v2 : Bool} {l3 : List α} {x1a x2a : Arr} {v1a v2a : Bool}
    (h : axisStep ax m1 m2 "outer" l1 l2 x1 x2 v1 v2 = .ok (l3, x1a, x2a, v1a, v2a))
    (hne : l1 ≠ l2) :
    FilledAt x1a ax (listmap_fill l1 (unionList l1 l2) 0).2 m1 ∧
    FilledAt x2a ax (listmap_fill l2 (unionList l1 l2) 0).2 m2 := by
  unfold axisStep at h
  rw [if_neg (by simp), if_pos rfl, if_neg hne] at h
  dsimp only at h
  split at h
  · simp at h
  · rename_i fl1 x1f hf1
    split at h
    · simp at h
    · rename_i fl2 x2f hf2
      simp only [Except.ok.injEq, Prod.mk.injEq] at h
      obtain ⟨-, h2e, h3e, -, -⟩ := h
      subst h2e; subst h3e
      exact ⟨FilledAt_of_fillAt hf1, FilledAt_of_fillAt hf2⟩

/-- A position of the target list whose label is absent from the source
list is reported in the missing-position set of `listmap_fill`. -/
theorem listmap_fill_mem_miss {src tgt : List α} {i : Nat} {t : α}
    {fillIdx : Nat} (h : tgt.get? i = some t) (hni : t ∉ src) :
    i ∈ (listmap_fill src tgt fillIdx).2 := by
  have hlt : i < tgt.length := by
    by_contra hc
    rw [List.get?_eq_none.mpr (Nat.le_of_not_lt hc)] at h
    exact Option.noConfusion h
  unfold listmap_fill
  dsimp only
  rw [List.mem_filter, List.mem_range]
  refine ⟨hlt, ?_⟩
  rw [h]
  exact decide_eq_true hni

/-- If all axes succeed, the whole loop leaves the two buffers filled with
their markers at every position along axis `ax0 + k` that the respective
source label list lacks, provided axis `k` of the triples is an `'outer'`
join of differing label lists. -/
theorem alignLoop_outer_filledAt {m1 m2 : Val} :
    ∀ (ts : List (String × List α × List α)) (ax0 : Nat) (x1 x2 : Arr)
      (v1 v2 : Bool) (k : Nat) {l1 l2 : List α} {labs : List (List α)}
      {x1b x2b : Arr} {v1b v2b : Bool},
      alignLoop m1 m2 ts ax0 x1 x2 v1 v2 = .ok (labs, x1b, x2b, v1b, v2b) →
      ts.get? k = some ("outer", l1, l2) → l1 ≠ l2 →
      FilledAt x1b (ax0 + k) (listmap_fill l1 (unionList l1 l2) 0).2 m1 ∧
      FilledAt x2b (ax0 + k) (listmap_fill l2 (unionList l1 l2) 0).2 m2
  | [], ax0, x1, x2, v1, v2, k, l1, l2, labs, x1b, x2b, v1b, v2b, h, hk, hne => by
    simp at hk
  | (j, g1, g2) :: rest, ax0, x1, x2, v1, v2, k, l1, l2, labs, x1b, x2b, v1b,
      v2b, h, hk, hne => by
    unfold alignLoop at h
    split at h
    · simp at h
    · rename_i step l3 x1a x2a v1a v2a hstep
      split at h
      · simp at h
      · rename_i rec labs2 x1c x2c v1c v2c hrec
        simp only [Except.ok.injEq, Prod.mk.injEq] at h
        obtain ⟨-, h2e, h3e, -, -⟩ := h
        subst h2e; subst h3e
        cases k with
        | zero =>
          simp only [List.get?, Option.some.injEq, Prod.mk.injEq] at hk
          obtain ⟨hj, hg1, hg2⟩ := hk
          subst hj; subst hg1; subst hg2
          obtain ⟨hfa1, hfa2⟩ := axisStep_outer_filled hstep hne
          obtain ⟨hp1, hp2⟩ := alignLoop_preserves_filledAt rest (ax0 + 1)
            x1a x2a v1a v2a hrec (Nat.lt_succ_self ax0)
          rw [Nat.add_zero]
          exact ⟨hp1 hfa1, hp2 hfa2⟩
        | succ k2 =>
          simp only [List.get?] at hk
          have hrec2 := alignLoop_outer_filledAt rest (ax0 + 1) x1a x2a v1a v2a
            k2 hrec hk hne
          have hax : ax0 + (k2 + 1) = (ax0 + 1) + k2 := by omega
          rw [hax]
          exact hrec2

end Lemmas

/-! ## Claim theorems -/

section Claims

variable {α : Type} [LinearOrder α]

/-- C1 counterexample: aligning an array with itself with join mode
`'inner'` when its (common) label list `[1, 0]` is not sorted returns that
label list verbatim, which differs from the sorted set intersection
`[0, 1]`; so the output label list does not always equal the sorted set
intersection of the two input label lists. -/
theorem align_inner_fastpath_counterexample :
    (align cexLar cexLar (JoinArg.single "inner") (Val.str "default") true).map
        (fun p => p.1.label.get? 0) = Except.ok (some [1, 0]) ∧
    interList [1, 0] [1, 0] = [0, 1] ∧
    ([1, 0] : List Nat) ≠ [0, 1] := by
  refine ⟨rfl, by decide, by decide⟩

/-- C1 (amended): for every pair of equal-rank labeled arrays aligned with
join mode `'inner'` on an axis, the output label list on that axis equals
the sorted set intersection of the two input label lists on that axis,
except when the two label lists are element-for-element equal, in which
case it is that common list verbatim (original order). -/
theorem align_inner_sorted_intersection {lar1 lar2 : Larry α} {join : JoinArg}
    {fill : Val} {cast : Bool} {lar3 lar4 : Larry α} {js : List String}
    {ax : Nat} {l1 l2 : List α}
    (h : align lar1 lar2 join fill cast = .ok (lar3, lar4))
    (hn : joinNorm join lar2.ndim = .ok js)
    (hj : js.get? ax = some "inner")
    (h1 : lar1.label.get? ax = some l1)
    (h2 : lar2.label.get? ax = some l2) :
    lar3.label.get? ax = some (if l1 = l2 then l1 else interList l1 l2) ∧
    lar4.label.get? ax = some (if l1 = l2 then l1 else interList l1 l2) :=
  align_label_at h hn hj h1 h2

/-- C1 witness: a concrete inner join; labels `[0, 1]` against `[1, 2]`
give the sorted intersection `[1]` on both outputs. -/
theorem align_inner_sorted_intersection_witness :
    (align wLar1 wLar2 (JoinArg.single "inner") (Val.str "default") true).map
        (fun p => (p.1.label.get? 0, p.2.label.get? 0))
      = Except.ok (some [1], some [1]) := by
  obtain ⟨⟨lar3, lar4⟩, hE⟩ :
      ∃ p, align wLar1 wLar2 (JoinArg.single "inner") (Val.str "default") true
        = Except.ok p := ⟨_, rfl⟩
  have hn : joinNorm (JoinArg.single "inner") wLar2.ndim
      = Except.ok (List.replicate 1 "inner") := rfl
  have hj : (List.replicate 1 "inner").get? 0 = some "inner" := rfl
  have h1 : wLar1.label.get? 0 = some [0, 1] := rfl
  have h2 : wLar2.label.get? 0 = some [1, 2] := rfl
  obtain ⟨ha, hb⟩ := align_inner_sorted_intersection hE hn hj h1 h2
  rw [hE]
  simp only [Except.map]
  rw [ha, hb]
  rfl

/-- C4 (confirmed): for a `'left'` join on an axis the output label list is
exactly the first input's label list in original order (and for `'right'`
the second input's); moreover the `'left'` axis step passes the first
array's buffer and view flag through unchanged (only the second array is
gathered/filled), and symmetrically for `'right'`. -/
theorem align_left_right_order {lar1 lar2 : Larry α} {join : JoinArg}
    {fill : Val} {cast : Bool} {lar3 lar4 : Larry α} {js : List String}
    {ax : Nat} {l1 l2 : List α}
    (h : align lar1 lar2 join fill cast = .ok (lar3, lar4))
    (hn : joinNorm join lar2.ndim = .ok js)
    (h1 : lar1.label.get? ax = some l1)
    (h2 : lar2.label.get? ax = some l2) :
    (js.get? ax = some "left" →
        lar3.label.get? ax = some l1 ∧ lar4.label.get? ax = some l1) ∧
    (js.get? ax = some "right" →
        lar3.label.get? ax = some l2 ∧ lar4.label.get? ax = some l2) ∧
    (∀ (a : Nat) (m1 m2 : Val) (g1 g2 : List α) (x1 x2 : Arr) (v1 v2 : Bool)
        (l3 : List α) (x1a x2a : Arr) (v1a v2a : Bool),
        axisStep a m1 m2 "left" g1 g2 x1 x2 v1 v2 = .ok (l3, x1a, x2a, v1a, v2a) →
        l3 = g1 ∧ x1a = x1 ∧ v1a = v1) ∧
    (∀ (a : Nat) (m1 m2 : Val) (g1 g2 : List α) (x1 x2 : Arr) (v1 v2 : Bool)
        (l3 : List α) (x1a x2a : Arr) (v1a v2a : Bool),
        axisStep a m1 m2 "right" g1 g2 x1 x2 v1 v2 = .ok (l3, x1a, x2a, v1a, v2a) →
        l3 = g2 ∧ x2a = x2 ∧ v2a = v2) := by
  refine ⟨fun hj => align_label_at h hn hj h1 h2, fun hj => align_label_at h hn hj h1 h2,
    ?_, ?_⟩
  · intro a m1 m2 g1 g2 x1 x2 v1 v2 l3 x1a x2a v1a v2a hs
    unfold axisStep at hs
    split_ifs at hs <;> (try dsimp only at hs) <;> (repeat' split at hs) <;>
      first
        | (simp only [Except.ok.injEq, Prod.mk.injEq] at hs; tauto)
        | simp at hs
  · intro a m1 m2 g1 g2 x1 x2 v1 v2 l3 x1a x2a v1a v2a hs
    unfold axisStep at hs
    split_ifs at hs <;> (try dsimp only at hs) <;> (repeat' split at hs) <;>
      first
        | (simp only [Except.ok.injEq, Prod.mk.injEq] at hs; tauto)
        | simp at hs

/-- C4 witness: a concrete left join; output labels are the first input's
`[0, 1]`, unsorted order untouched, on both outputs. -/
theorem align_left_right_order_witness :
    (align wLar1 wLar2 (JoinArg.single "left") (Val.str "default") true).map
        (fun p => (p.1.label.get? 0, p.2.label.get? 0))
      = Except.ok (some [0, 1], some [0, 1]) := by
  obtain ⟨⟨lar3, lar4⟩, hE⟩ :
      ∃ p, align wLar1 wLar2 (JoinArg.single "left") (Val.str "default") true
        = Except.ok p := ⟨_, rfl⟩
  have hn : joinNorm (JoinArg.single "left") wLar2.ndim
      = Except.ok (List.replicate 1 "left") := rfl
  have h1 : wLar1.label.get? 0 = some [0, 1] := rfl
  have h2 : wLar2.label.get? 0 = some [1, 2] := rfl
  obtain ⟨hl, -, -, -⟩ := align_left_right_order hE hn h1 h2
  have hj : (List.replicate 1 "left").get? 0 = some "left" := rfl
  obtain ⟨ha, hb⟩ := hl hj
  rw [hE]
  simp only [Except.map]
  rw [ha, hb]

/-- C3 (confirmed): aligning a larry with itself under any recognized join
specification returns two larrys with the original label lists (original
order) and the original buffer contents; moreover the axis loop itself is
the identity — no gather or fill is performed on any axis (the buffers
come back untouched, with the view flags intact). -/
theorem align_self_identity {lar : Larry α} {join : JoinArg} {fill : Val}
    {cast : Bool} {js : List String}
    (hn : joinNorm join lar.ndim = .ok js)
    (hrec : ∀ j ∈ js, recognizedJoin j) :
    ((align lar lar join fill cast).map (fun p => (p.1.label, p.2.label))
        = .ok (lar.label, lar.label)) ∧
    ((align lar lar join fill cast).map (fun p => (p.1.x.data, p.2.x.data))
        = .ok (lar.x.data, lar.x.data)) ∧
    (∀ (m1 m2 : Val) (x1 x2 : Arr) (v1 v2 : Bool),
        alignLoop m1 m2 (zip3 js lar.label lar.label) 0 x1 x2 v1 v2
          = .ok (lar.label, x1, x2, v1, v2)) := by
  have hlen : js.length = lar.label.length := joinNorm_length hn
  have hloop : ∀ (m1 m2 : Val) (x1 x2 : Arr) (v1 v2 : Bool),
      alignLoop m1 m2 (zip3 js lar.label lar.label) 0 x1 x2 v1 v2
        = .ok (lar.label, x1, x2, v1, v2) :=
    fun m1 m2 x1 x2 v1 v2 => alignLoop_self js lar.label 0 x1 x2 v1 v2 hlen hrec
  have hE : align lar lar join fill cast
      = .ok (⟨if true = true then ((resolveFill lar lar fill cast).1.x).copy 1
                else (resolveFill lar lar fill cast).1.x, lar.label⟩,
             ⟨if true = true then ((resolveFill lar lar fill cast).2.1.x).copy 2
                else (resolveFill lar lar fill cast).2.1.x, lar.label⟩) :=
    align_eq_of_ok rfl hn (hloop _ _ _ _ _ _)
  refine ⟨?_, ?_, hloop⟩ <;>
    rw [hE] <;>
    simp [Except.map, Arr.copy, resolveFill_fst_data lar lar fill cast,
          resolveFill_snd_data lar lar fill cast]

/-- C3 witness: a concrete larry aligned with itself under a per-axis
`['outer']` join and an explicit integer fill. -/
theorem align_self_identity_witness :
    (align wLar1 wLar1 (JoinArg.perAxis ["outer"]) (Val.num 7) false).map
        (fun p => (p.1.label, p.2.label)) = Except.ok ([[0, 1]], [[0, 1]]) := by
  have hn : joinNorm (JoinArg.perAxis ["outer"]) (Larry.ndim wLar1)
      = Except.ok ["outer"] := rfl
  have hrec : ∀ j ∈ (["outer"] : List String), recognizedJoin j := by
    intro j hj
    rw [List.mem_singleton] at hj
    subst hj
    right; left; rfl
  exact (align_self_identity hn hrec).1

/-- C7 (confirmed): an explicit fill value (anything other than the
literal string `'default'`) is used verbatim as the missing marker for
both inputs — the resolution step returns the two inputs unchanged with
the fill value as both markers, performing no marker lookup and no dtype
widening — and `align` then ignores the `cast` flag entirely. -/
theorem align_explicit_fill_verbatim {lar1 lar2 : Larry α} {fill : Val}
    (hf : fill ≠ Val.str "default") :
    (∀ cast : Bool, resolveFill lar1 lar2 fill cast = (lar1, lar2, fill, fill)) ∧
    (∀ (join : JoinArg) (c1 c2 : Bool),
        align lar1 lar2 join fill c1 = align lar1 lar2 join fill c2) := by
  have hr : ∀ c : Bool, resolveFill lar1 lar2 fill c = (lar1, lar2, fill, fill) := by
    intro c
    unfold resolveFill
    rw [if_neg hf]
  refine ⟨hr, fun join c1 c2 => ?_⟩
  unfold align
  rw [hr c1, hr c2]

/-- C7 witness: with fill `0` the resolution is verbatim and the `cast`
flag is irrelevant at a concrete outer join. -/
theorem align_explicit_fill_verbatim_witness :
    resolveFill wLar1 wLar2 (Val.num 0) true = (wLar1, wLar2, Val.num 0, Val.num 0) ∧
    align wLar1 wLar2 (JoinArg.single "outer") (Val.num 0) true
      = align wLar1 wLar2 (JoinArg.single "outer") (Val.num 0) false := by
  refine ⟨?_, ?_⟩
  · exact (align_explicit_fill_verbatim (by decide)).1 true
  · exact (align_explicit_fill_verbatim (by decide)).2 (JoinArg.single "outer") true false

/-- C9 (confirmed): passing the literal string `'default'` as the `fill`
argument is indistinguishable from requesting the default fill policy:
`align` behaves exactly like the fill-parameter-free default-policy
variant, whose marker resolution (with possible casting) always runs, and
the resolution step is exactly the default resolution — the string is
never used as a fill value. -/
theorem align_fill_default_string_policy (lar1 lar2 : Larry α)
    (join : JoinArg) (cast : Bool) :
    align lar1 lar2 join (Val.str "default") cast
      = alignDefaultPolicy lar1 lar2 join cast ∧
    resolveFill lar1 lar2 (Val.str "default") cast
      = resolveDefault lar1 lar2 cast := by
  have h2 : resolveFill lar1 lar2 (Val.str "default") cast
      = resolveDefault lar1 lar2 cast := by
    unfold resolveFill
    rw [if_pos rfl]
  refine ⟨?_, h2⟩
  unfold align alignDefaultPolicy
  rw [h2]

/-- C9 witness: concrete instance of the policy equivalence. -/
theorem align_fill_default_string_policy_witness :
    align wLar1 wLar2 (JoinArg.single "inner") (Val.str "default") true
      = alignDefaultPolicy wLar1 wLar2 (JoinArg.single "inner") true :=
  (align_fill_default_string_policy wLar1 wLar2 (JoinArg.single "inner") true).1

/-- C10 (confirmed): `union` called with an axis index and zero array
arguments returns the empty list instead of failing. -/
theorem union_no_args_empty (axis : Nat) :
    union axis ([] : List (Arg α)) = .ok [] := rfl

/-- C10 witness: concrete instance at axis 0. -/
theorem union_no_args_empty_witness :
    union 0 ([] : List (Arg Nat)) = .ok [] :=
  union_no_args_empty 0

/-- C5 counterexample: an int larry (no missing marker for its dtype)
aligned with itself under the default fill and `cast=False` succeeds —
no type error is raised, because the marker is only consulted when a fill
is actually attempted. -/
theorem align_nomarker_inner_counterexample :
    missing_marker intLar = Val.notImpl ∧
    isOk (align intLar intLar (JoinArg.single "inner") (Val.str "default") false)
      = true := by
  refine ⟨rfl, rfl⟩

/-- C5 (amended): for a labeled array whose element type has no missing
marker, `align` with default fill and `cast=False` raises the fill
`TypeError` when a fill is actually attempted — e.g. under an `'outer'`
join with some axis whose label lists differ; when no fill is attempted
(identical labels, or inner join) the call succeeds instead. -/
theorem align_nomarker_fill_typeError {lar1 lar2 : Larry α} {ax : Nat}
    {l1 l2 : List α}
    (hm : missing_marker lar1 = Val.notImpl)
    (hnd : lar1.ndim = lar2.ndim)
    (h1 : lar1.label.get? ax = some l1)
    (h2 : lar2.label.get? ax = some l2)
    (hne : l1 ≠ l2) :
    align lar1 lar2 (JoinArg.single "outer") (Val.str "default") false
      = .error (.typeError "`fill` type not compatible with larry dtype") := by
  unfold align
  rw [if_neg (by rw [hnd]; exact fun hc => hc rfl)]
  dsimp only [joinNorm]
  rw [resolveFill_default_nocast lar1 lar2]
  dsimp only
  rw [hm]
  have hrep : List.replicate lar2.ndim "outer"
      = List.replicate lar1.label.length "outer" := by
    rw [← hnd]; rfl
  rw [hrep, alignLoop_outer_notImpl_fails lar1.label lar2.label 0 lar1.x lar2.x
        true true ax l1 l2 (missing_marker_no_canHold hm) h1 h2 hne]

/-- C5 witness: two concrete int larrys with differing labels under an
outer join raise the fill `TypeError`. -/
theorem align_nomarker_fill_typeError_witness :
    align intLar intLar2 (JoinArg.single "outer") (Val.str "default") false
      = .error (.typeError "`fill` type not compatible with larry dtype") := by
  have h1 : intLar.label.get? 0 = some [0, 1] := rfl
  have h2 : intLar2.label.get? 0 = some [1, 2] := rfl
  exact align_nomarker_fill_typeError rfl rfl h1 h2 (by decide)

/-- C8 counterexample: `intersection` with a non-larry first argument
fails with an `AttributeError` (from `args[0].label`), not with a
`TypeError` — the first position is never type-checked. -/
theorem intersection_first_arg_counterexample :
    intersection 0 [(Arg.notLarry : Arg Nat)] = .error PyErr.attrError ∧
    PyErr.isTypeError PyErr.attrError = false := ⟨rfl, rfl⟩

/-- C8 (amended): `union` fails with the larry `TypeError` for a non-larry
argument in any position, and `intersection` does so for a non-larry in
any position after the first; but a non-larry in the first position of
`intersection` fails with an `AttributeError` instead (the axis bound
assumptions reflect the interface precondition that every larry argument
exposes a label list for the requested axis). -/
theorem union_intersection_typeError :
    (∀ (axis : Nat) (args : List (Arg α)),
        (∀ l : Larry α, Arg.lar l ∈ args → axis < l.label.length) →
        Arg.notLarry ∈ args →
        union axis args = .error (.typeError "One or more input is not a larry")) ∧
    (∀ (axis : Nat) (l0 : Larry α) (rest : List (Arg α)),
        axis < l0.label.length →
        (∀ l : Larry α, Arg.lar l ∈ rest → axis < l.label.length) →
        Arg.notLarry ∈ rest →
        intersection axis (Arg.lar l0 :: rest)
          = .error (.typeError "One or more input is not a larry")) ∧
    (∀ (axis : Nat) (rest : List (Arg α)),
        intersection axis (Arg.notLarry :: rest) = .error PyErr.attrError) := by
  refine ⟨?_, ?_, fun axis rest => rfl⟩
  · intro axis args hax hmem
    unfold union
    rw [unionAcc_notLarry axis args [] hax hmem]
    rfl
  · intro axis l0 rest h0 hax hmem
    unfold intersection
    dsimp only
    obtain ⟨lab0, hlab0⟩ : ∃ lab, l0.label.get? axis = some lab := by
      cases hg : l0.label.get? axis with
      | none => exact absurd (List.get?_eq_none.mp hg) (Nat.not_le.mpr h0)
      | some lab => exact ⟨lab, rfl⟩
    rw [hlab0]
    dsimp only
    rw [interAcc_notLarry axis rest lab0 hax hmem]
    rfl

/-- C8 witness: concrete non-larry arguments in checked positions raise
the `TypeError`; a non-larry first argument of `intersection` raises the
`AttributeError`. -/
theorem union_intersection_typeError_witness :
    union 0 [Arg.lar wLar1, (Arg.notLarry : Arg Nat)]
      = .error (.typeError "One or more input is not a larry") ∧
    intersection 0 [Arg.lar wLar1, (Arg.notLarry : Arg Nat)]
      = .error (.typeError "One or more input is not a larry") ∧
    intersection 0 ([Arg.notLarry] : List (Arg Nat)) = .error PyErr.attrError := by
  obtain ⟨hu, hi, ha⟩ := @union_intersection_typeError Nat _
  have hax : ∀ l : Larry Nat, Arg.lar l ∈ [Arg.lar wLar1, (Arg.notLarry : Arg Nat)] →
      0 < l.label.length := by
    intro l hl
    rcases List.mem_cons.mp hl with hc | hc
    · cases hc
      exact Nat.zero_lt_one
    · rcases List.mem_cons.mp hc with hc2 | hc2
      · exact Arg.noConfusion hc2
      · exact absurd hc2 (List.not_mem_nil _)
  have hax2 : ∀ l : Larry Nat, Arg.lar l ∈ ([Arg.notLarry] : List (Arg Nat)) →
      0 < l.label.length := by
    intro l hl
    rcases List.mem_cons.mp hl with hc | hc
    · exact Arg.noConfusion hc
    · exact absurd hc (List.not_mem_nil _)
  refine ⟨hu 0 _ hax (List.mem_cons_of_mem _ (List.mem_cons_self _ _)), ?_, ha 0 []⟩
  exact hi 0 wLar1 [Arg.notLarry] Nat.zero_lt_one hax2 (List.mem_cons_self _ _)

/-- C6 (confirmed): on any successful `align` whose two input buffers are
pre-existing source blocks, the two output buffers live in freshly
allocated blocks: they alias neither each other nor either input — so
mutating one output affects neither the other output nor the inputs (and
the inputs, being read-only throughout, are never mutated: every in-place
fill happens on a freshly gathered block). -/
theorem align_outputs_not_aliased {lar1 lar2 : Larry α} {join : JoinArg}
    {fill : Val} {cast : Bool} {lar3 lar4 : Larry α} {n1 n2 : Nat}
    (hr1 : lar1.x.id = BufId.root n1) (hr2 : lar2.x.id = BufId.root n2)
    (h : align lar1 lar2 join fill cast = .ok (lar3, lar4)) :
    lar3.x.id ≠ lar4.x.id ∧ lar3.x.id ≠ lar1.x.id ∧ lar3.x.id ≠ lar2.x.id ∧
    lar4.x.id ≠ lar1.x.id ∧ lar4.x.id ≠ lar2.x.id := by
  obtain ⟨js, x1, x2, v1, v2, -, -, hloop, -, h3x, h4x⟩ := align_ok_inv h
  obtain ⟨hq1, hq2⟩ := alignLoop_idside _ _ _ _ _ _ hloop
  have hs3 : IdSide 1 lar3.x.id := by
    rw [h3x]
    cases v1 with
    | true => exact ⟨0, x1.id, rfl⟩
    | false => simpa using hq1 (fun hc => absurd hc (by simp)) rfl
  have hs4 : IdSide 2 lar4.x.id := by
    rw [h4x]
    cases v2 with
    | true => exact ⟨0, x2.id, rfl⟩
    | false => simpa using hq2 (fun hc => absurd hc (by simp)) rfl
  refine ⟨idside_ne hs3 hs4 (by simp), ?_, ?_, ?_, ?_⟩ <;>
    first
      | (rw [hr1]; exact idside_ne_root hs3)
      | (rw [hr2]; exact idside_ne_root hs3)
      | (rw [hr1]; exact idside_ne_root hs4)
      | (rw [hr2]; exact idside_ne_root hs4)

/-- C6 witness: concrete aligned outputs occupy blocks distinct from each
other and from both inputs. -/
theorem align_outputs_not_aliased_witness :
    (align wLar1 wLar2 (JoinArg.single "inner") (Val.str "default") true).map
        (fun p =>
          (decide (p.1.x.id = p.2.x.id), decide (p.1.x.id = wLar1.x.id),
           decide (p.1.x.id = wLar2.x.id), decide (p.2.x.id = wLar1.x.id),
           decide (p.2.x.id = wLar2.x.id)))
      = Except.ok (false, false, false, false, false) := by
  obtain ⟨⟨lar3, lar4⟩, hE⟩ :
      ∃ p, align wLar1 wLar2 (JoinArg.single "inner") (Val.str "default") true
        = Except.ok p := ⟨_, rfl⟩
  have hr1 : wLar1.x.id = BufId.root 0 := rfl
  have hr2 : wLar2.x.id = BufId.root 1 := rfl
  obtain ⟨d1, d2, d3, d4, d5⟩ := align_outputs_not_aliased hr1 hr2 hE
  rw [hE]
  simp only [Except.map, Except.ok.injEq]
  rw [decide_eq_false d1, decide_eq_false d2, decide_eq_false d3,
      decide_eq_false d4, decide_eq_false d5]

/-- C2 counterexample: aligning an array with itself with join mode
`'outer'` when its (common) label list `[1, 0]` is not sorted returns that
label list verbatim, which differs from the sorted set union `[0, 1]`; so
the output label list does not always equal the sorted set union of the
two input label lists. -/
theorem align_outer_fastpath_counterexample :
    (align cexLar cexLar (JoinArg.single "outer") (Val.str "default") true).map
        (fun p => p.1.label.get? 0) = Except.ok (some [1, 0]) ∧
    unionList [1, 0] [1, 0] = [0, 1] ∧
    ([1, 0] : List Nat) ≠ [0, 1] := by
  refine ⟨rfl, by decide, by decide⟩

/-- C2 (amended): for an `'outer'` join on an axis, the output label list
on that axis equals the sorted set union of the two input label lists,
except when the two lists are element-for-element equal, in which case it
is that common list verbatim; and whenever the lists differ, every output
position whose label is absent from one input's label list carries that
side's resolved missing marker (or the explicit fill value) everywhere in
the corresponding output slice. -/
theorem align_outer_sorted_union_fill {lar1 lar2 : Larry α} {join : JoinArg}
    {fill : Val} {cast : Bool} {lar3 lar4 : Larry α} {js : List String}
    {ax : Nat} {l1 l2 : List α}
    (h : align lar1 lar2 join fill cast = .ok (lar3, lar4))
    (hn : joinNorm join lar2.ndim = .ok js)
    (hj : js.get? ax = some "outer")
    (h1 : lar1.label.get? ax = some l1)
    (h2 : lar2.label.get? ax = some l2) :
    lar3.label.get? ax = some (if l1 = l2 then l1 else unionList l1 l2) ∧
    lar4.label.get? ax = some (if l1 = l2 then l1 else unionList l1 l2) ∧
    (∀ (i : Nat) (lab : α), (unionList l1 l2).get? i = some lab → lab ∉ l1 →
        ∀ idx : List Nat, idx.getD ax 0 = i →
          lar3.x.data idx = (resolveFill lar1 lar2 fill cast).2.2.1) ∧
    (∀ (i : Nat) (lab : α), (unionList l1 l2).get? i = some lab → lab ∉ l2 →
        ∀ idx : List Nat, idx.getD ax 0 = i →
          lar4.x.data idx = (resolveFill lar1 lar2 fill cast).2.2.2) := by
  obtain ⟨hl3, hl4⟩ := align_label_at h hn hj h1 h2
  by_cases hll : l1 = l2
  · subst hll
    refine ⟨hl3, hl4, ?_, ?_⟩ <;>
      (intro i lab hget hnotin idx hidx
       rcases mem_unionList.mp (List.get?_mem hget) with hm | hm <;>
         exact absurd hm hnotin)
  · obtain ⟨js2, x1, x2, v1, v2, -, hn2, hloop, -, h3x, h4x⟩ := align_ok_inv h
    have hjs : js2 = js := by
      rw [hn] at hn2
      exact (Except.ok.inj hn2).symm
    subst hjs
    have hts : (zip3 js2 lar1.label lar2.label).get? ax
        = some ("outer", l1, l2) := zip3_get? js2 lar1.label lar2.label ax hj h1 h2
    obtain ⟨hf1, hf2⟩ := alignLoop_outer_filledAt _ 0 _ _ _ _ ax hloop hts hll
    rw [Nat.zero_add] at hf1 hf2
    have hd3 : lar3.x.data = x1.data := by
      rw [h3x]
      cases v1 <;> rfl
    have hd4 : lar4.x.data = x2.data := by
      rw [h4x]
      cases v2 <;> rfl
    refine ⟨hl3, hl4, ?_, ?_⟩
    · intro i lab hget hnotin idx hidx
      rw [hd3]
      exact hf1 idx (by rw [hidx]; exact listmap_fill_mem_miss hget hnotin)
    · intro i lab hget hnotin idx hidx
      rw [hd4]
      exact hf2 idx (by rw [hidx]; exact listmap_fill_mem_miss hget hnotin)

/-- C2 witness: outer join of labels `[0, 1]` and `[1, 2]`; output labels
are `[0, 1, 2]`, the first output is NaN-filled on the slice of label `2`
and the second on the slice of label `0`. -/
theorem align_outer_sorted_union_fill_witness :
    (align wLar1 wLar2 (JoinArg.single "outer") (Val.str "default") true).map
        (fun p => (p.1.label.get? 0, p.1.x.data [2], p.2.x.data [0]))
      = Except.ok (some [0, 1, 2], Val.nan, Val.nan) := by
  obtain ⟨⟨lar3, lar4⟩, hE⟩ :
      ∃ p, align wLar1 wLar2 (JoinArg.single "outer") (Val.str "default") true
        = Except.ok p := ⟨_, rfl⟩
  have hn : joinNorm (JoinArg.single "outer") wLar2.ndim
      = Except.ok (List.replicate 1 "outer") := rfl
  have hj : (List.replicate 1 "outer").get? 0 = some "outer" := rfl
  have h1 : wLar1.label.get? 0 = some [0, 1] := rfl
  have h2 : wLar2.label.get? 0 = some [1, 2] := rfl
  obtain ⟨ha, -, hc, hd⟩ := align_outer_sorted_union_fill hE hn hj h1 h2
  have hg2 : (unionList [0, 1] [1, 2]).get? 2 = some 2 := by decide
  have hg0 : (unionList [0, 1] [1, 2]).get? 0 = some 0 := by decide
  have hv3 : lar3.x.data [2] = Val.nan :=
    hc 2 2 hg2 (by decide) [2] rfl
  have hv4 : lar4.x.data [0] = Val.nan :=
    hd 0 0 hg0 (by decide) [0] rfl
  rw [hE]
  simp only [Except.map]
  rw [ha, hv3, hv4]
  rfl

end Claims

end La
